import Mathlib

/-!
Verification development for the smart-drive-manager storage engine.

Shallow embedding of the core storage engine:
  - the composite-key on-disk B-Tree (source/data_structures/BTree.h),
    including its bounded node page cache;
  - the string-key on-disk B+-Tree (source/data_structures/BPlusTree.h);
  - the fixed-slot record heap store (source/core/DatabaseManager.h);
  - the index-manager facade (source/core/IndexManager.h).

Modelling conventions:
  - machine integers (uint8/uint16/uint32/uint64) are modelled as Nat; the
    embedded operations only copy and compare these fields, so no overflow
    arithmetic occurs;
  - the node file is modelled as a list of decoded nodes; the C++ byte
    offset 4096 * o of a node page is modelled as the index o, with 0
    reserved for the metadata page (read_node(0) fails in the source);
  - the C arrays keys[MAX_KEYS] / child_offsets[MAX_CHILDREN] /
    values[MAX_CHILDREN] together with key_count are modelled as lists
    holding exactly the key_count live entries (key_count + 1 for the
    child array of an internal node); the C union of child offsets and
    values is modelled as two separate lists, of which each node uses the
    one selected by its node_type, exactly as the source does;
  - recursion over node offsets is bounded by an explicit fuel parameter;
    the concrete theorems instantiate the fuel visibly above the depth the
    run needs, so the fueled run coincides with the C++ recursion.
-/

namespace SDM

/-! ## Composite keys and values (BTree.h) -/

/-- CompositeKey from BTree.h: (entity_type, primary_id, timestamp, sequence). -/
structure CompositeKey where
  entity_type : Nat
  primary_id : Nat
  timestamp : Nat
  sequence : Nat
deriving DecidableEq, Repr

/-- CompositeKey::operator< : lexicographic in field order, as in the source. -/
def CompositeKey.lt (a b : CompositeKey) : Bool :=
  if a.entity_type ≠ b.entity_type then decide (a.entity_type < b.entity_type)
  else if a.primary_id ≠ b.primary_id then decide (a.primary_id < b.primary_id)
  else if a.timestamp ≠ b.timestamp then decide (a.timestamp < b.timestamp)
  else decide (a.sequence < b.sequence)

/-- CompositeKey::operator== : all four fields equal. -/
def CompositeKey.eqb (a b : CompositeKey) : Bool :=
  decide (a.entity_type = b.entity_type) && decide (a.primary_id = b.primary_id) &&
  decide (a.timestamp = b.timestamp) && decide (a.sequence = b.sequence)

/-- CompositeKey::operator<= : lt or eq, as written in the source. -/
def CompositeKey.leb (a b : CompositeKey) : Bool :=
  a.lt b || a.eqb b

/-- CompositeKey::operator> : not (<=). -/
def CompositeKey.gtb (a b : CompositeKey) : Bool :=
  !(a.leb b)

/-- CompositeKey::operator>= : not (<). -/
def CompositeKey.geb (a b : CompositeKey) : Bool :=
  !(a.lt b)

/-- The zero-initialised composite key (default constructor). -/
def CompositeKey.zero : CompositeKey := ⟨0, 0, 0, 0⟩

/-- BTreeValue from BTree.h: (record_offset, file_id, record_size); the
reserved bytes are always zero and are omitted. -/
structure BTreeValue where
  record_offset : Nat
  file_id : Nat
  record_size : Nat
deriving DecidableEq, Repr

/-- The zero-initialised BTreeValue (default constructor). -/
def BTreeValue.zero : BTreeValue := ⟨0, 0, 0⟩

/-! ## B-Tree nodes, metadata and page cache (BTree.h) -/

/-- Order constants of BTreeNode. -/
def BT_MAX_KEYS : Nat := 9
def BT_MIN_KEYS : Nat := 4

/-- BTreeNode: node_type 1 is a leaf, 0 an internal node. keys/children/vals
hold exactly the live prefix of the fixed on-disk arrays (see module
conventions); next_leaf/prev_leaf are the leaf-chain page offsets. -/
structure BTreeNode where
  node_type : Nat
  level : Nat
  keys : List CompositeKey
  children : List Nat
  vals : List BTreeValue
  next_leaf : Nat
  prev_leaf : Nat
deriving DecidableEq, Repr

/-- The default-constructed node: an empty leaf, everything zeroed. -/
def BTreeNode.empty : BTreeNode :=
  { node_type := 1, level := 0, keys := [], children := [], vals := [],
    next_leaf := 0, prev_leaf := 0 }

/-- BTreeNode::is_leaf. -/
def BTreeNode.is_leaf (n : BTreeNode) : Bool := n.node_type == 1

/-- BTreeNode::is_full (key_count is the length of the live key list). -/
def BTreeNode.is_full (n : BTreeNode) : Bool := decide (n.keys.length ≥ BT_MAX_KEYS)

/-- One entry of the BTree node page cache (BTree.h CacheEntry). -/
structure CacheEntry where
  offset : Nat
  node : BTreeNode
  dirty : Bool
deriving DecidableEq, Repr

/-- BTree CACHE_SIZE constant. -/
def CACHE_SIZE : Nat := 256

/-- State of one BTree: the node file (pages), the in-memory page cache,
and the metadata fields that the operations use (root offset, total record
count, tree height). -/
structure BTreeState where
  pages : List BTreeNode
  cache : List CacheEntry
  root_offset : Nat
  total_records : Nat
  tree_height : Nat
deriving DecidableEq, Repr

/-- Write a node at a page offset of the file (offsets are 1-based; the
metadata page is offset 0 and is not writable through write_node). -/
def writePage (pages : List BTreeNode) (off : Nat) (n : BTreeNode) : List BTreeNode :=
  pages.set (off - 1) n

/-- Read the node stored at a page offset of the file, bypassing the cache. -/
def pageAt (s : BTreeState) (off : Nat) : BTreeNode :=
  (s.pages.get? (off - 1)).getD BTreeNode.empty

/-- BTree::add_to_cache: on a full cache the slot at index 0 (the
earliest-added entry, since entries are only ever appended) is written back
if dirty and then erased; the new entry is appended at the back. -/
def add_to_cache (s : BTreeState) (off : Nat) (n : BTreeNode) (dirty : Bool) : BTreeState :=
  if s.cache.length ≥ CACHE_SIZE then
    match s.cache with
    | [] => { s with cache := [⟨off, n, dirty⟩] }
    | e :: rest =>
      let pages := if e.dirty then writePage s.pages e.offset e.node else s.pages
      { s with pages := pages, cache := rest ++ [⟨off, n, dirty⟩] }
  else
    { s with cache := s.cache ++ [⟨off, n, dirty⟩] }

/-- Update the first cache entry with the given offset in place, keeping the
order of entries; returns none when no entry has that offset. -/
def updateEntries (off : Nat) (n : BTreeNode) (dirty : Bool) :
    List CacheEntry → Option (List CacheEntry)
  | [] => none
  | e :: rest =>
    if e.offset == off then some ({ e with node := n, dirty := dirty } :: rest)
    else (updateEntries off n dirty rest).map (e :: ·)

/-- BTree::update_cache: update in place on a hit, otherwise add_to_cache. -/
def update_cache (s : BTreeState) (off : Nat) (n : BTreeNode) (dirty : Bool) : BTreeState :=
  match updateEntries off n dirty s.cache with
  | some c => { s with cache := c }
  | none => add_to_cache s off n dirty

/-- BTree::read_node: offset 0 fails; a cache hit returns the cached node
and leaves the state unchanged; otherwise the node is read from the file
and added to the cache (not dirty). -/
def read_node (s : BTreeState) (off : Nat) : Option BTreeNode × BTreeState :=
  if off == 0 then (none, s)
  else
    match s.cache.find? (fun e => e.offset == off) with
    | some e => (some e.node, s)
    | none =>
      match s.pages.get? (off - 1) with
      | none => (none, s)
      | some n => (some n, add_to_cache s off n false)

/-- BTree::write_node: offset 0 fails; otherwise the node is written to the
file and the cache entry is updated (not dirty). -/
def write_node (s : BTreeState) (off : Nat) (n : BTreeNode) : BTreeState :=
  if off == 0 then s
  else update_cache { s with pages := writePage s.pages off n } off n false

/-- BTree::allocate_node: append a default node at the end of the file and
return its offset. -/
def allocate_node (s : BTreeState) : Nat × BTreeState :=
  (s.pages.length + 1, { s with pages := s.pages ++ [BTreeNode.empty] })

/-- BTree::find_key_position: the first position whose key is not < key,
scanning from the left. -/
def find_key_position (keys : List CompositeKey) (key : CompositeKey) : Nat :=
  (keys.takeWhile (fun k => k.lt key)).length

/-- Length of the maximal suffix whose every element compares > key; this is
the number of elements the right-to-left shifting loops of insert_non_full
move past before stopping. -/
def gtSuffixLen (key : CompositeKey) : List CompositeKey → Nat
  | [] => 0
  | k :: rest =>
    if (k :: rest).all (fun x => x.gtb key) then (k :: rest).length
    else gtSuffixLen key rest

/-- Insert a (key, value) pair into a leaf by the right-to-left shifting
loop of BTree::insert_non_full: all trailing pairs with key > new key are
shifted right and the new pair lands before them. -/
def leafInsertKV (key : CompositeKey) (value : BTreeValue) :
    List (CompositeKey × BTreeValue) → List (CompositeKey × BTreeValue)
  | [] => [(key, value)]
  | x :: rest =>
    if (x :: rest).all (fun p => p.1.gtb key) then (key, value) :: x :: rest
    else x :: leafInsertKV key value rest

/-- BTree::split_child: split the full child at child_index of parent.
Returns the updated parent (the C++ function mutates it by reference) and
the new state. Mirrors the source line by line: the right half of the keys
moves to a fresh node, the median key is promoted into the parent, a leaf
links the new node after itself in the next/prev chain (without touching
the old successor), and child, new node and parent are written back. -/
def split_child (s : BTreeState) (parent_offset : Nat) (parent : BTreeNode)
    (child_index : Nat) : BTreeNode × BTreeState :=
  let child_offset := parent.children.getD child_index 0
  match read_node s child_offset with
  | (none, s) => (parent, s)
  | (some child, s) =>
    let (new_node_offset, s) := allocate_node s
    let mid := BT_MIN_KEYS
    let new_keys := (child.keys.drop (mid + 1)).take BT_MIN_KEYS
    let sep := child.keys.getD mid CompositeKey.zero
    let base : BTreeNode :=
      { BTreeNode.empty with
          node_type := child.node_type, level := child.level,
          keys := new_keys }
    let (new_node, child) :=
      if child.is_leaf then
        ({ base with
            vals := (child.vals.drop (mid + 1)).take BT_MIN_KEYS,
            next_leaf := child.next_leaf, prev_leaf := child_offset },
         { child with
            keys := child.keys.take BT_MIN_KEYS,
            vals := child.vals.take BT_MIN_KEYS, next_leaf := new_node_offset })
      else
        ({ base with children := (child.children.drop (mid + 1)).take (BT_MIN_KEYS + 1) },
         { child with
            keys := child.keys.take BT_MIN_KEYS,
            children := child.children.take (BT_MIN_KEYS + 1) })
    let parent :=
      { parent with
        keys := parent.keys.take child_index ++ [sep] ++ parent.keys.drop child_index,
        children := parent.children.take (child_index + 1) ++ [new_node_offset] ++
          parent.children.drop (child_index + 1) }
    let s := write_node s child_offset child
    let s := write_node s new_node_offset new_node
    let s := write_node s parent_offset parent
    (parent, s)

/-- BTree::insert_non_full, with explicit fuel for the descent. -/
def insert_non_full (fuel : Nat) (s : BTreeState) (node_offset : Nat)
    (node : BTreeNode) (key : CompositeKey) (value : BTreeValue) : BTreeState :=
  match fuel with
  | 0 => s
  | fuel + 1 =>
    if node.is_leaf then
      let kvs := leafInsertKV key value (node.keys.zip node.vals)
      write_node s node_offset
        { node with keys := kvs.map Prod.fst, vals := kvs.map Prod.snd }
    else
      let pos := node.keys.length - gtSuffixLen key node.keys
      let child_offset := node.children.getD pos 0
      let (childOpt, s) := read_node s child_offset
      let child := childOpt.getD BTreeNode.empty
      if child.is_full then
        let (node, s) := split_child s node_offset node pos
        let pos := if (node.keys.getD pos CompositeKey.zero).lt key then pos + 1 else pos
        let child_offset := node.children.getD pos 0
        let (childOpt, s) := read_node s child_offset
        insert_non_full fuel s child_offset (childOpt.getD BTreeNode.empty) key value
      else
        insert_non_full fuel s child_offset child key value

/-- BTree::insert: split a full root first (growing the height), then
insert along a never-full path; total_records is incremented
unconditionally at the end. -/
def btreeInsert (fuel : Nat) (s : BTreeState) (key : CompositeKey)
    (value : BTreeValue) : Bool × BTreeState :=
  if s.root_offset == 0 then (false, s)
  else
    let (rootOpt, s) := read_node s s.root_offset
    let root := rootOpt.getD BTreeNode.empty
    let s :=
      if root.is_full then
        let (new_root_offset, s) := allocate_node s
        let new_root : BTreeNode :=
          { BTreeNode.empty with
              node_type := 0, level := root.level + 1,
              children := [s.root_offset] }
        let (_, s) := split_child s new_root_offset new_root 0
        let s := { s with
                     root_offset := new_root_offset,
                     tree_height := s.tree_height + 1 }
        let (nrOpt, s) := read_node s new_root_offset
        insert_non_full fuel s new_root_offset (nrOpt.getD BTreeNode.empty) key value
      else
        insert_non_full fuel s s.root_offset root key value
    (true, { s with total_records := s.total_records + 1 })

/-- BTree::search_recursive, with explicit fuel for the descent. -/
def search_recursive (fuel : Nat) (s : BTreeState) (node_offset : Nat)
    (key : CompositeKey) : Option BTreeValue × BTreeState :=
  match fuel with
  | 0 => (none, s)
  | fuel + 1 =>
    if node_offset == 0 then (none, s)
    else
      match read_node s node_offset with
      | (none, s) => (none, s)
      | (some node, s) =>
        let pos := find_key_position node.keys key
        if pos < node.keys.length ∧ (node.keys.getD pos CompositeKey.zero).eqb key then
          if node.is_leaf then (some (node.vals.getD pos BTreeValue.zero), s)
          else search_recursive fuel s (node.children.getD (pos + 1) 0) key
        else if node.is_leaf then (none, s)
        else search_recursive fuel s (node.children.getD pos 0) key

/-- BTree::search. -/
def btreeSearch (fuel : Nat) (s : BTreeState) (key : CompositeKey) :
    Option BTreeValue × BTreeState :=
  search_recursive fuel s s.root_offset key

/-- The child loop of BTree::range_query_recursive at an internal node:
for i from pos to key_count, recurse into child i, breaking after a child
whose separator key exceeds the upper bound. The recursive call at the
smaller fuel is passed in as f. -/
def rangeLoop
    (f : BTreeState → Nat → List (CompositeKey × BTreeValue) →
      List (CompositeKey × BTreeValue) × BTreeState)
    (keys : List CompositeKey) (children : List Nat) (end_key : CompositeKey) :
    Nat → Nat → BTreeState → List (CompositeKey × BTreeValue) →
      List (CompositeKey × BTreeValue) × BTreeState
  | _, 0, s, acc => (acc, s)
  | i, cnt + 1, s, acc =>
    let (acc, s) := f s (children.getD i 0) acc
    if i < keys.length ∧ (keys.getD i CompositeKey.zero).gtb end_key then (acc, s)
    else rangeLoop f keys children end_key (i + 1) cnt s acc

/-- BTree::range_query_recursive, with explicit fuel: a leaf emits its
in-range pairs in order and then follows next_leaf while its last key is
below the upper bound; an internal node loops over the children from
find_key_position(start) on. -/
def range_query_recursive (fuel : Nat) (start_key end_key : CompositeKey)
    (s : BTreeState) (node_offset : Nat)
    (acc : List (CompositeKey × BTreeValue)) :
    List (CompositeKey × BTreeValue) × BTreeState :=
  match fuel with
  | 0 => (acc, s)
  | fuel + 1 =>
    if node_offset == 0 then (acc, s)
    else
      match read_node s node_offset with
      | (none, s) => (acc, s)
      | (some node, s) =>
        if node.is_leaf then
          let acc := acc ++ (node.keys.zip node.vals).filter
            (fun p => p.1.geb start_key && p.1.leb end_key)
          if node.keys.length > 0 ∧
              (node.keys.getD (node.keys.length - 1) CompositeKey.zero).lt end_key ∧
              node.next_leaf ≠ 0 then
            range_query_recursive fuel start_key end_key s node.next_leaf acc
          else (acc, s)
        else
          let pos := find_key_position node.keys start_key
          rangeLoop (fun s off acc => range_query_recursive fuel start_key end_key s off acc)
            node.keys node.children end_key pos (node.keys.length + 1 - pos) s acc

/-- BTree::range_query. -/
def btreeRangeQuery (fuel : Nat) (s : BTreeState)
    (start_key end_key : CompositeKey) :
    List (CompositeKey × BTreeValue) × BTreeState :=
  range_query_recursive fuel start_key end_key s s.root_offset []

/-- The state right after BTree::create(): one empty leaf root at page
offset 1, empty cache, zero counters. -/
def btreeNew : BTreeState :=
  { pages := [BTreeNode.empty], cache := [], root_offset := 1,
    total_records := 0, tree_height := 0 }

/-! ## String B+-Tree (BPlusTree.h)

BPlusKey is a fixed 128-byte buffer compared with strcmp; it is modelled
as the list of its bytes before the NUL terminator, compared
lexicographically, which is exactly strcmp on such buffers. -/

/-- strcmp(a, b) < 0 on NUL-terminated byte strings. -/
def bpKeyLt : List Nat → List Nat → Bool
  | [], [] => false
  | [], _ :: _ => true
  | _ :: _, [] => false
  | a :: as, b :: bs => if a < b then true else if b < a then false else bpKeyLt as bs

/-- strcmp(a, b) == 0. -/
def bpKeyEq (a b : List Nat) : Bool := a == b

/-- strcmp(a, b) > 0, i.e. BPlusKey::operator>. -/
def bpKeyGt (a b : List Nat) : Bool := bpKeyLt b a

/-- BPlusValue from BPlusTree.h: (primary_id, entity_type). -/
structure BPlusValue where
  primary_id : Nat
  entity_type : Nat
deriving DecidableEq, Repr

/-- Order constants of BPlusNode. -/
def BP_MAX_KEYS : Nat := 19
def BP_MIN_KEYS : Nat := 9

/-- BPlusNode, same modelling conventions as BTreeNode. -/
structure BPlusNode where
  node_type : Nat
  level : Nat
  keys : List (List Nat)
  children : List Nat
  vals : List BPlusValue
  next_leaf : Nat
  prev_leaf : Nat
deriving DecidableEq, Repr

/-- The default-constructed BPlusNode: an empty leaf. -/
def BPlusNode.empty : BPlusNode :=
  { node_type := 1, level := 0, keys := [], children := [], vals := [],
    next_leaf := 0, prev_leaf := 0 }

/-- BPlusNode::is_leaf. -/
def BPlusNode.is_leaf (n : BPlusNode) : Bool := n.node_type == 1

/-- BPlusNode::is_full. -/
def BPlusNode.is_full (n : BPlusNode) : Bool := decide (n.keys.length ≥ BP_MAX_KEYS)

/-- State of one BPlusTree: the node file and the metadata fields used by
the operations. The BPlusTree performs direct file I/O with no page cache. -/
structure BPlusState where
  pages : List BPlusNode
  root_offset : Nat
  leftmost_leaf : Nat
  total_entries : Nat
  tree_height : Nat
deriving DecidableEq, Repr

/-- BPlusTree::read_node: offset 0 fails, otherwise read from the file. -/
def bpReadNode (s : BPlusState) (off : Nat) : Option BPlusNode :=
  if off == 0 then none else s.pages.get? (off - 1)

/-- BPlusTree::write_node. -/
def bpWriteNode (s : BPlusState) (off : Nat) (n : BPlusNode) : BPlusState :=
  { s with pages := s.pages.set (off - 1) n }

/-- BPlusTree::allocate_node. -/
def bpAllocateNode (s : BPlusState) : Nat × BPlusState :=
  (s.pages.length + 1, { s with pages := s.pages ++ [BPlusNode.empty] })

/-- BPlusTree::find_key_position: first position whose key is not < key. -/
def bpFindKeyPosition (keys : List (List Nat)) (key : List Nat) : Nat :=
  (keys.takeWhile (fun k => bpKeyLt k key)).length

/-- Length of the maximal suffix of keys comparing > key (the elements the
right-to-left loops of BPlusTree::insert_non_full move past). -/
def bpGtSuffixLen (key : List Nat) : List (List Nat) → Nat
  | [] => 0
  | k :: rest =>
    if (k :: rest).all (fun x => bpKeyGt x key) then (k :: rest).length
    else bpGtSuffixLen key rest

/-- Leaf insertion by the right-to-left shifting loop of
BPlusTree::insert_non_full. -/
def bpLeafInsertKV (key : List Nat) (value : BPlusValue) :
    List (List Nat × BPlusValue) → List (List Nat × BPlusValue)
  | [] => [(key, value)]
  | x :: rest =>
    if (x :: rest).all (fun p => bpKeyGt p.1 key) then (key, value) :: x :: rest
    else x :: bpLeafInsertKV key value rest

/-- BPlusTree::split_child: identical shape to the BTree splitter (median
promoted to the parent, right half to a fresh node, leaf chain updated only
on the split leaf and the new node). -/
def bpSplitChild (s : BPlusState) (parent_offset : Nat) (parent : BPlusNode)
    (index : Nat) : BPlusNode × BPlusState :=
  let child_offset := parent.children.getD index 0
  let child := (bpReadNode s child_offset).getD BPlusNode.empty
  let (new_offset, s) := bpAllocateNode s
  let mid := BP_MIN_KEYS
  let new_keys := (child.keys.drop (mid + 1)).take BP_MIN_KEYS
  let sep := child.keys.getD mid []
  let base : BPlusNode :=
    { BPlusNode.empty with
        node_type := child.node_type, level := child.level, keys := new_keys }
  let (new_node, child) :=
    if child.is_leaf then
      ({ base with
          vals := (child.vals.drop (mid + 1)).take BP_MIN_KEYS,
          next_leaf := child.next_leaf, prev_leaf := child_offset },
       { child with
          keys := child.keys.take BP_MIN_KEYS,
          vals := child.vals.take BP_MIN_KEYS, next_leaf := new_offset })
    else
      ({ base with children := (child.children.drop (mid + 1)).take (BP_MIN_KEYS + 1) },
       { child with
          keys := child.keys.take BP_MIN_KEYS,
          children := child.children.take (BP_MIN_KEYS + 1) })
  let parent :=
    { parent with
      keys := parent.keys.take index ++ [sep] ++ parent.keys.drop index,
      children := parent.children.take (index + 1) ++ [new_offset] ++
        parent.children.drop (index + 1) }
  let s := bpWriteNode s child_offset child
  let s := bpWriteNode s new_offset new_node
  let s := bpWriteNode s parent_offset parent
  (parent, s)

/-- BPlusTree::insert_non_full, with explicit fuel. -/
def bpInsertNonFull (fuel : Nat) (s : BPlusState) (node_offset : Nat)
    (node : BPlusNode) (key : List Nat) (value : BPlusValue) : BPlusState :=
  match fuel with
  | 0 => s
  | fuel + 1 =>
    if node.is_leaf then
      let kvs := bpLeafInsertKV key value (node.keys.zip node.vals)
      bpWriteNode s node_offset
        { node with keys := kvs.map Prod.fst, vals := kvs.map Prod.snd }
    else
      let pos := node.keys.length - bpGtSuffixLen key node.keys
      let child_offset := node.children.getD pos 0
      let child := (bpReadNode s child_offset).getD BPlusNode.empty
      if child.is_full then
        let (node, s) := bpSplitChild s node_offset node pos
        let pos := if bpKeyLt (node.keys.getD pos []) key then pos + 1 else pos
        let child_offset := node.children.getD pos 0
        let child := (bpReadNode s child_offset).getD BPlusNode.empty
        bpInsertNonFull fuel s child_offset child key value
      else
        bpInsertNonFull fuel s child_offset child key value

/-- BPlusTree::insert: split a full root first, then insert along a
never-full path; total_entries is incremented unconditionally and the
function always returns true. -/
def bpInsert (fuel : Nat) (s : BPlusState) (key : List Nat)
    (value : BPlusValue) : Bool × BPlusState :=
  let root := (bpReadNode s s.root_offset).getD BPlusNode.empty
  let s :=
    if root.is_full then
      let (new_root_offset, s) := bpAllocateNode s
      let new_root : BPlusNode :=
        { BPlusNode.empty with
            node_type := 0, level := root.level + 1,
            children := [s.root_offset] }
      let (_, s) := bpSplitChild s new_root_offset new_root 0
      let s := { s with
                   root_offset := new_root_offset,
                   tree_height := s.tree_height + 1 }
      let nr := (bpReadNode s new_root_offset).getD BPlusNode.empty
      bpInsertNonFull fuel s new_root_offset nr key value
    else
      bpInsertNonFull fuel s s.root_offset root key value
  (true, { s with total_entries := s.total_entries + 1 })

/-- BPlusTree::search_recursive, with explicit fuel. -/
def bpSearchRecursive (fuel : Nat) (s : BPlusState) (node_offset : Nat)
    (key : List Nat) : Option BPlusValue :=
  match fuel with
  | 0 => none
  | fuel + 1 =>
    if node_offset == 0 then none
    else
      match bpReadNode s node_offset with
      | none => none
      | some node =>
        let pos := bpFindKeyPosition node.keys key
        if node.is_leaf then
          if pos < node.keys.length ∧ bpKeyEq (node.keys.getD pos []) key then
            some (node.vals.getD pos ⟨0, 0⟩)
          else none
        else bpSearchRecursive fuel s (node.children.getD pos 0) key

/-- BPlusTree::search. -/
def bpSearch (fuel : Nat) (s : BPlusState) (key : List Nat) : Option BPlusValue :=
  bpSearchRecursive fuel s s.root_offset key

/-- The state right after BPlusTree::create(): one empty leaf root at page
offset 1 which is also the left-most leaf. -/
def bplusNew : BPlusState :=
  { pages := [BPlusNode.empty], root_offset := 1, leftmost_leaf := 1,
    total_entries := 0, tree_height := 0 }

/-! ## Record heap store (DatabaseManager.h, sdm_types.hpp)

DriverProfile and TripRecord are fixed 1024-byte records. The heap-store
operations only ever inspect the id field and the liveness sentinel and
copy whole records, so the model keeps the id fields, the sentinel and the
string fields used by the index facade, and folds every remaining byte of
the record into the single field rest: an operation leaves "all other
bytes" of a slot unchanged exactly when it leaves these fields unchanged. -/

/-- DriverProfile (sdm_types.hpp): liveness sentinel is the explicit
is_active flag; username/email are the byte strings used by the index
facade; rest stands for all remaining bytes of the 1024-byte record. -/
structure DriverProfile where
  driver_id : Nat
  username : List Nat
  email : List Nat
  is_active : Nat
  rest : Nat
deriving DecidableEq, Repr

/-- TripRecord (sdm_types.hpp): liveness sentinel is trip_id != 0; rest
stands for all remaining bytes of the 1024-byte record. -/
structure TripRecord where
  trip_id : Nat
  driver_id : Nat
  rest : Nat
deriving DecidableEq, Repr

/-- The all-zero TripRecord written into every slot by
DatabaseManager::create() (the TripRecord default constructor zeroes every
field). -/
def TripRecord.zero : TripRecord := ⟨0, 0, 0⟩

/-- The open heap-store state: the is_open flag and the slot arrays of the
driver and trip tables (the other five tables are not touched by the
claims). The slot at index i models the record at byte offset
table_start + i * 1024 of the database file. -/
structure DBState where
  is_open : Bool
  drivers : List DriverProfile
  trips : List TripRecord
deriving DecidableEq, Repr

/-- The scan loop of DatabaseManager::create_driver: find the first slot
whose is_active sentinel is 0 and overwrite it; none when the table is
full. -/
def scanCreateDriver (d : DriverProfile) : List DriverProfile → Option (List DriverProfile)
  | [] => none
  | p :: rest =>
    if p.is_active == 0 then some (d :: rest)
    else (scanCreateDriver d rest).map (p :: ·)

/-- DatabaseManager::create_driver: fails when the store is not open or no
slot is free; otherwise writes into the first free slot, as the scan does. -/
def create_driver (st : DBState) (d : DriverProfile) : Bool × DBState :=
  if !st.is_open then (false, st)
  else
    match scanCreateDriver d st.drivers with
    | some tbl => (true, { st with drivers := tbl })
    | none => (false, st)

/-- The scan loop of DatabaseManager::read_driver: first slot with
is_active == 1 and the requested driver_id. -/
def scanReadDriver (id : Nat) : List DriverProfile → Option DriverProfile
  | [] => none
  | p :: rest =>
    if p.is_active == 1 && p.driver_id == id then some p
    else scanReadDriver id rest

/-- DatabaseManager::read_driver. -/
def read_driver (st : DBState) (id : Nat) : Option DriverProfile :=
  if !st.is_open then none else scanReadDriver id st.drivers

/-- The scan loop of DatabaseManager::delete_driver: on the first slot with
is_active == 1 and the requested id, write the record back with is_active
set to 0, leaving its other fields and every other slot untouched. -/
def scanDeleteDriver (id : Nat) : List DriverProfile → Option (List DriverProfile)
  | [] => none
  | p :: rest =>
    if p.is_active == 1 && p.driver_id == id then
      some ({ p with is_active := 0 } :: rest)
    else (scanDeleteDriver id rest).map (p :: ·)

/-- DatabaseManager::delete_driver. -/
def delete_driver (st : DBState) (id : Nat) : Bool × DBState :=
  if !st.is_open then (false, st)
  else
    match scanDeleteDriver id st.drivers with
    | some tbl => (true, { st with drivers := tbl })
    | none => (false, st)

/-- The scan loop of DatabaseManager::create_trip: the free-slot sentinel
for trips is trip_id == 0. -/
def scanCreateTrip (t : TripRecord) : List TripRecord → Option (List TripRecord)
  | [] => none
  | p :: rest =>
    if p.trip_id == 0 then some (t :: rest)
    else (scanCreateTrip t rest).map (p :: ·)

/-- DatabaseManager::create_trip. -/
def create_trip (st : DBState) (t : TripRecord) : Bool × DBState :=
  if !st.is_open then (false, st)
  else
    match scanCreateTrip t st.trips with
    | some tbl => (true, { st with trips := tbl })
    | none => (false, st)

/-- The scan loop of DatabaseManager::read_trip: the source compares only
trip.trip_id == trip_id, with no liveness check at all. -/
def scanReadTrip (id : Nat) : List TripRecord → Option TripRecord
  | [] => none
  | p :: rest => if p.trip_id == id then some p else scanReadTrip id rest

/-- DatabaseManager::read_trip. -/
def read_trip (st : DBState) (id : Nat) : Option TripRecord :=
  if !st.is_open then none else scanReadTrip id st.trips

/-! ## Index manager facade (IndexManager.h) -/

/-- The success/failure outcomes of the eight sub-structure calls that
IndexManager::create_indexes makes, in call order: create() and open() of
the primary B-Tree and of the email, plate and username B+-Trees. The file
system outcomes are the environment of the facade, so they are inputs of
the model. -/
structure CreateOutcomes where
  primary_create : Bool
  primary_open : Bool
  email_create : Bool
  email_open : Bool
  plate_create : Bool
  plate_open : Bool
  username_create : Bool
  username_open : Bool
deriving DecidableEq, Repr

/-- IndexManager::create_indexes: the exact early-return chain of the
source — each failing sub-call returns false immediately, and true is
returned only after all eight calls succeed. -/
def create_indexes (r : CreateOutcomes) : Bool :=
  if !r.primary_create then false
  else if !r.primary_open then false
  else if !r.email_create then false
  else if !r.email_open then false
  else if !r.plate_create then false
  else if !r.plate_open then false
  else if !r.username_create then false
  else if !r.username_open then false
  else true

/-- The outcomes of the four open() calls of IndexManager::open_indexes,
in call order: primary, email, plate, username. -/
structure OpenOutcomes where
  primary_open : Bool
  email_open : Bool
  plate_open : Bool
  username_open : Bool
deriving DecidableEq, Repr

/-- IndexManager::open_indexes: early-return chain over the four opens. -/
def open_indexes (r : OpenOutcomes) : Bool :=
  if !r.primary_open then false
  else if !r.email_open then false
  else if !r.plate_open then false
  else if !r.username_open then false
  else true

/-- The three secondary indexes owned by the facade, as used by the
rebuild operations. -/
structure IMState where
  driver_email_index : BPlusState
  driver_username_index : BPlusState
  vehicle_plate_index : BPlusState
deriving DecidableEq, Repr

/-- IndexManager::insert_driver_email: key is the email string, value is
(driver_id, entity type 1). -/
def insert_driver_email (fuel : Nat) (s : IMState) (email : List Nat)
    (driver_id : Nat) : IMState :=
  { s with driver_email_index :=
      (bpInsert fuel s.driver_email_index email ⟨driver_id, 1⟩).2 }

/-- IndexManager::insert_driver_username. -/
def insert_driver_username (fuel : Nat) (s : IMState) (username : List Nat)
    (driver_id : Nat) : IMState :=
  { s with driver_username_index :=
      (bpInsert fuel s.driver_username_index username ⟨driver_id, 1⟩).2 }

/-- IndexManager::insert_vehicle_plate: value entity type is 2. -/
def insert_vehicle_plate (fuel : Nat) (s : IMState) (plate : List Nat)
    (vehicle_id : Nat) : IMState :=
  { s with vehicle_plate_index :=
      (bpInsert fuel s.vehicle_plate_index plate ⟨vehicle_id, 2⟩).2 }

/-- IndexManager::rebuild_driver_indexes: for every record, insert its
email and username keys, with no existence check; always returns true. -/
def rebuild_driver_indexes (fuel : Nat) (s : IMState)
    (drivers : List DriverProfile) : IMState :=
  drivers.foldl
    (fun s d => insert_driver_username fuel
      (insert_driver_email fuel s d.email d.driver_id) d.username d.driver_id) s

/-- VehicleInfo, reduced to the fields used by rebuild_vehicle_indexes. -/
structure VehicleInfo where
  vehicle_id : Nat
  license_plate : List Nat
deriving DecidableEq, Repr

/-- IndexManager::rebuild_vehicle_indexes. -/
def rebuild_vehicle_indexes (fuel : Nat) (s : IMState)
    (vehicles : List VehicleInfo) : IMState :=
  vehicles.foldl (fun s v => insert_vehicle_plate fuel s v.license_plate v.vehicle_id) s

/-- The facade state right after create_indexes(): three fresh B+-Trees. -/
def imNew : IMState := ⟨bplusNew, bplusNew, bplusNew⟩

/-! ## Concrete scenario helpers -/

/-- The composite key the index facade builds for entity kind 3 ("trip"),
id i, timestamp i, sequence 0. -/
def tripKey (i : Nat) : CompositeKey := ⟨3, i, i, 0⟩

/-- A distinct value per id: record offset i, file id 1, record size 1024. -/
def tripVal (i : Nat) : BTreeValue := ⟨i, 1, 1024⟩

/-- Insert tripKey i with tripVal i for every id of the list, in order. -/
def insertIds (fuel : Nat) (s : BTreeState) (ids : List Nat) : BTreeState :=
  ids.foldl (fun s i => (btreeInsert fuel s (tripKey i) (tripVal i)).2) s

/-- The ascending id list lo, lo+1, ..., hi. -/
def idRange (lo hi : Nat) : List Nat := (List.range (hi + 1 - lo)).map (· + lo)

/-- The two-digit string key "kNN" as a byte list (k = 107, digits 48+d):
distinct, strcmp-ordered keys for the B+-Tree scenarios. -/
def mkStrKey (i : Nat) : List Nat := [107, 48 + i / 10, 48 + i % 10]

/-- Insert mkStrKey i with value (i, 1) for every i of the list, in order. -/
def bpInsertIds (fuel : Nat) (s : BPlusState) (ids : List Nat) : BPlusState :=
  ids.foldl (fun s i => (bpInsert fuel s (mkStrKey i) ⟨i, 1⟩).2) s

/-- A cache of count entries with consecutive offsets from start, all
holding the empty node, not dirty (witness material for the cache claims). -/
def mkCacheRec : Nat → Nat → List CacheEntry
  | _, 0 => []
  | start, count + 1 => ⟨start, BTreeNode.empty, false⟩ :: mkCacheRec (start + 1) count

/-! ## Claim theorems -/

set_option maxRecDepth 400000 in
/-- C1: the round-trip property fails on both tree types. Counterexample,
kernel-evaluated on the embedded code: inserting the ten distinct composite
keys (3,i,i,0), i = 1..10, into a fresh composite B-Tree makes the tenth
insert split the root leaf, which promotes the median key (3,5,5,0) into
the new internal root; internal nodes store no values and the search of a
separator key descends into the right child, which does not contain it, so
search of the inserted key (3,5,5,0) returns not-found while neighbouring
keys are still found. Likewise, inserting the twenty distinct string keys
k01..k20 into a fresh B+-Tree splits the root leaf at the twentieth insert
and loses the median key k10. -/
theorem claim_C1_roundtrip_fails_on_split_median :
    (btreeSearch 64 (insertIds 64 btreeNew (idRange 1 10)) (tripKey 5)).1 = none ∧
    (btreeSearch 64 (insertIds 64 btreeNew (idRange 1 10)) (tripKey 6)).1 =
      some (tripVal 6) ∧
    bpSearch 64 (bpInsertIds 64 bplusNew (idRange 1 20)) (mkStrKey 10) = none ∧
    bpSearch 64 (bpInsertIds 64 bplusNew (idRange 1 20)) (mkStrKey 11) =
      some ⟨11, 1⟩ := by
  decide

set_option maxRecDepth 400000 in
/-- C2: range_query is wrong on the embedded code as soon as one leaf split
has happened. After inserting the ten distinct keys (3,i,i,0), i = 1..10,
the query over the full range [(3,1,1,0), (3,10,10,0)] emits the key
(3,6,6,0) twice — the leaf scan follows the next-leaf chain into the second
leaf and the internal-node child loop then visits that same leaf again —
and emits the in-range inserted key (3,5,5,0) zero times, because that key
was promoted to a separator position by the split and no leaf holds it. -/
theorem claim_C2_range_query_duplicates_and_omits :
    ((btreeRangeQuery 64 (insertIds 64 btreeNew (idRange 1 10))
        (tripKey 1) (tripKey 10)).1.map Prod.fst).count (tripKey 6) = 2 ∧
    ((btreeRangeQuery 64 (insertIds 64 btreeNew (idRange 1 10))
        (tripKey 1) (tripKey 10)).1.map Prod.fst).count (tripKey 5) = 0 ∧
    (tripKey 5).geb (tripKey 1) = true ∧ (tripKey 5).leb (tripKey 10) = true := by
  decide

set_option maxRecDepth 400000 in
/-- C8: the leaf chain is not doubly linked after a split of a leaf that
already has a successor. Kernel evaluation of the embedded code on the
insert sequence 6..14 then 5,4,3,2,1,0: the first split creates leaves at
page offsets 1 and 3 (1 before 3); the second split of leaf 1 creates leaf
4 between them. Following next pointers gives the correct ascending chain
1 → 4 → 3, but split_child never updates the old successor, so leaf 3
still has prev_leaf = 1 instead of its actual predecessor 4. -/
theorem claim_C8_leaf_chain_prev_stale_after_split :
    (pageAt (insertIds 64 btreeNew ([6,7,8,9,10,11,12,13,14] ++ [5,4,3,2,1,0])) 1).next_leaf = 4 ∧
    (pageAt (insertIds 64 btreeNew ([6,7,8,9,10,11,12,13,14] ++ [5,4,3,2,1,0])) 4).next_leaf = 3 ∧
    (pageAt (insertIds 64 btreeNew ([6,7,8,9,10,11,12,13,14] ++ [5,4,3,2,1,0])) 4).prev_leaf = 1 ∧
    (pageAt (insertIds 64 btreeNew ([6,7,8,9,10,11,12,13,14] ++ [5,4,3,2,1,0])) 3).prev_leaf = 1 ∧
    ((pageAt (insertIds 64 btreeNew ([6,7,8,9,10,11,12,13,14] ++ [5,4,3,2,1,0])) 4).keys.map
      CompositeKey.primary_id) = [6, 7, 8, 9] ∧
    ((pageAt (insertIds 64 btreeNew ([6,7,8,9,10,11,12,13,14] ++ [5,4,3,2,1,0])) 3).keys.map
      CompositeKey.primary_id) = [11, 12, 13, 14] := by
  decide

/-- C5: the facade is all-or-nothing. create_indexes returns true exactly
when all eight sub-structure calls (create and open of the primary B-Tree
and of the three B+-Trees) succeed, and open_indexes returns true exactly
when all four opens succeed; a single failure anywhere fails the facade. -/
theorem claim_C5_facade_all_or_nothing (r : CreateOutcomes) (q : OpenOutcomes) :
    (create_indexes r = true ↔
      (r.primary_create = true ∧ r.primary_open = true ∧
       r.email_create = true ∧ r.email_open = true ∧
       r.plate_create = true ∧ r.plate_open = true ∧
       r.username_create = true ∧ r.username_open = true)) ∧
    (open_indexes q = true ↔
      (q.primary_open = true ∧ q.email_open = true ∧
       q.plate_open = true ∧ q.username_open = true)) := by
  obtain ⟨a, b, c, d, e, f, g, h⟩ := r
  obtain ⟨p1, p2, p3, p4⟩ := q
  revert a b c d e f g h p1 p2 p3 p4
  decide

/-- Scan lemma for C10: with every free (id 0) slot zeroed and at least one
free slot present, the raw id scan of read_trip finds the all-zero record. -/
theorem scanReadTrip_finds_zero (l : List TripRecord)
    (hfree : TripRecord.zero ∈ l)
    (hzero : ∀ t ∈ l, t.trip_id = 0 → t = TripRecord.zero) :
    scanReadTrip 0 l = some TripRecord.zero := by
  induction l with
  | nil => cases hfree
  | cons t rest ih =>
    by_cases h0 : t.trip_id = 0
    · have ht : t = TripRecord.zero := hzero t (by simp) h0
      subst ht
      simp [scanReadTrip, TripRecord.zero]
    · have hne : (t.trip_id == 0) = false := by simp [h0]
      simp only [scanReadTrip, hne, Bool.false_eq_true, if_false]
      apply ih
      · rcases List.mem_cons.mp hfree with h | h
        · exact absurd (congrArg TripRecord.trip_id h).symm h0
        · exact h
      · intro u hu hu0
        exact hzero u (List.mem_cons_of_mem t hu) hu0

/-- C10: read_trip checks no liveness sentinel: it returns the first slot
whose trip_id equals the requested id. On an open store whose free slots
are all-zero records (as written by create()) and which still has at least
one free slot, read_trip(0) therefore succeeds and yields the all-zero
record instead of reporting not-found for the reserved id 0. -/
theorem claim_C10_read_trip_returns_free_slot_for_id_zero (st : DBState)
    (hopen : st.is_open = true)
    (hfree : TripRecord.zero ∈ st.trips)
    (hzero : ∀ t ∈ st.trips, t.trip_id = 0 → t = TripRecord.zero) :
    read_trip st 0 = some TripRecord.zero := by
  have h := scanReadTrip_finds_zero st.trips hfree hzero
  simp [read_trip, hopen, h]

/-- Witness for C10: a store with one occupied and one zeroed trip slot. -/
theorem claim_C10_witness :
    read_trip ⟨true, [], [⟨5, 1, 2⟩, TripRecord.zero]⟩ 0 = some TripRecord.zero := by
  exact claim_C10_read_trip_returns_free_slot_for_id_zero
    ⟨true, [], [⟨5, 1, 2⟩, TripRecord.zero]⟩ rfl (by decide) (by decide)

/-- Scan lemma for C4: when every slot is occupied the create scan fails. -/
theorem scanCreateDriver_full (d : DriverProfile) (l : List DriverProfile)
    (h : ∀ p ∈ l, p.is_active ≠ 0) : scanCreateDriver d l = none := by
  induction l with
  | nil => rfl
  | cons p rest ih =>
    have hp : (p.is_active == 0) = false := by simp [h p (by simp)]
    simp only [scanCreateDriver, hp, Bool.false_eq_true, if_false]
    rw [ih (fun q hq => h q (List.mem_cons_of_mem p hq))]
    rfl

/-- Scan lemma for C4: the create scan overwrites exactly the first free
slot, in ascending slot order. -/
theorem scanCreateDriver_first (d : DriverProfile) (l : List DriverProfile) :
    ∀ (i : Nat) (p : DriverProfile), l.get? i = some p → p.is_active = 0 →
    (∀ (j : Nat) (q : DriverProfile), j < i → l.get? j = some q → q.is_active ≠ 0) →
    scanCreateDriver d l = some (l.set i d) := by
  induction l with
  | nil => intro i p hget _ _; cases hget
  | cons hd rest ih =>
    intro i p hget hfree hbefore
    cases i with
    | zero =>
      have hph : hd = p := by simpa using hget
      subst hph
      have hp : (hd.is_active == 0) = true := by simp [hfree]
      simp [scanCreateDriver, hp]
    | succ k =>
      have hhd : hd.is_active ≠ 0 := hbefore 0 hd (Nat.succ_pos k) rfl
      have hp : (hd.is_active == 0) = false := by simp [hhd]
      simp only [scanCreateDriver, hp, Bool.false_eq_true, if_false]
      rw [ih k p hget hfree (fun j q hj hq => hbefore (j + 1) q (Nat.succ_lt_succ hj) hq)]
      rfl

/-- C4: create_driver scans the driver table in ascending slot order and
overwrites the first slot whose is_active sentinel is 0; when every slot is
occupied it returns failure (the boolean false, reported as SlotExhausted
at the error-model level of the spec) and the state, in particular every
slot of the table, is unchanged. -/
theorem claim_C4_create_driver_first_free_slot (st : DBState) (d : DriverProfile)
    (hopen : st.is_open = true) :
    ((∀ p ∈ st.drivers, p.is_active ≠ 0) → create_driver st d = (false, st)) ∧
    (∀ (i : Nat) (p : DriverProfile), st.drivers.get? i = some p → p.is_active = 0 →
      (∀ (j : Nat) (q : DriverProfile), j < i → st.drivers.get? j = some q → q.is_active ≠ 0) →
      create_driver st d = (true, { st with drivers := st.drivers.set i d })) := by
  constructor
  · intro h
    simp [create_driver, hopen, scanCreateDriver_full d st.drivers h]
  · intro i p hget hfree hbefore
    simp [create_driver, hopen, scanCreateDriver_first d st.drivers i p hget hfree hbefore]

/-- Witness for C4: slot 0 occupied, slot 1 free; the record lands in
slot 1; at full occupancy the call fails and changes nothing. -/
theorem claim_C4_witness :
    create_driver ⟨true, [⟨1, [], [], 1, 0⟩, ⟨0, [], [], 0, 0⟩], []⟩ ⟨2, [], [], 1, 7⟩ =
      (true, ⟨true, [⟨1, [], [], 1, 0⟩, ⟨2, [], [], 1, 7⟩], []⟩) ∧
    create_driver ⟨true, [⟨1, [], [], 1, 0⟩], []⟩ ⟨2, [], [], 1, 7⟩ =
      (false, ⟨true, [⟨1, [], [], 1, 0⟩], []⟩) := by
  constructor
  · have h := (claim_C4_create_driver_first_free_slot
      ⟨true, [⟨1, [], [], 1, 0⟩, ⟨0, [], [], 0, 0⟩], []⟩ ⟨2, [], [], 1, 7⟩ rfl).2
      1 ⟨0, [], [], 0, 0⟩ rfl rfl ?_
    · exact h.trans (by decide)
    · intro j q hj hq
      have hj0 : j = 0 := by omega
      subst hj0
      cases hq
      decide
  · have h := (claim_C4_create_driver_first_free_slot
      ⟨true, [⟨1, [], [], 1, 0⟩], []⟩ ⟨2, [], [], 1, 7⟩ rfl).1 ?_
    · exact h
    · intro p hp
      have : p = ⟨1, [], [], 1, 0⟩ := by simpa using hp
      subst this
      decide

/-- The liveness-and-id test of the driver scans. -/
def matchDriver (id : Nat) (p : DriverProfile) : Bool :=
  p.is_active == 1 && p.driver_id == id

/-- Scan lemma for C7: if no slot matches, the read scan misses. -/
theorem scanReadDriver_none (id : Nat) (l : List DriverProfile)
    (h : ∀ p ∈ l, matchDriver id p = false) : scanReadDriver id l = none := by
  induction l with
  | nil => rfl
  | cons p rest ih =>
    have hp := h p (by simp)
    simp only [scanReadDriver, matchDriver] at *
    rw [hp]
    simp only [Bool.false_eq_true, if_false]
    exact ih (fun q hq => h q (List.mem_cons_of_mem p hq))

/-- Scan lemma for C7: a successful read locates a slot index i holding
the record, and the delete scan rewrites exactly that slot, with only its
is_active field changed. -/
theorem scanDeleteDriver_of_read (id : Nat) (l : List DriverProfile) :
    ∀ (p : DriverProfile), scanReadDriver id l = some p →
    ∃ (i : Nat), l.get? i = some p ∧
      scanDeleteDriver id l = some (l.set i { p with is_active := 0 }) := by
  induction l with
  | nil => intro p hp; cases hp
  | cons q rest ih =>
    intro p hp
    by_cases hm : matchDriver id q = true
    · have hq : scanReadDriver id (q :: rest) = some q := by
        simp only [scanReadDriver, matchDriver] at *
        rw [hm]
        rfl
      rw [hq] at hp
      cases hp
      refine ⟨0, rfl, ?_⟩
      simp only [scanDeleteDriver, matchDriver] at *
      rw [hm]
      rfl
    · have hm2 : (q.is_active == 1 && q.driver_id == id) = false := by
        simpa [matchDriver] using hm
      have hq : scanReadDriver id (q :: rest) = scanReadDriver id rest := by
        simp only [scanReadDriver, hm2, Bool.false_eq_true, if_false]
      rw [hq] at hp
      obtain ⟨i, hget, hdel⟩ := ih p hp
      refine ⟨i + 1, hget, ?_⟩
      simp only [scanDeleteDriver, hm2, Bool.false_eq_true, if_false]
      rw [hdel]
      rfl

/-- Scan lemma for C7: when at most one slot matches the id, the read scan
misses after the delete scan has flipped the matching slot. -/
theorem scanReadDriver_after_delete (id : Nat) :
    ∀ (l l2 : List DriverProfile), (l.filter (matchDriver id)).length ≤ 1 →
    scanDeleteDriver id l = some l2 → scanReadDriver id l2 = none := by
  intro l
  induction l with
  | nil => intro l2 _ hdel; cases hdel
  | cons q rest ih =>
    intro l2 huniq hdel
    by_cases hm : matchDriver id q = true
    · have hm2 : (q.is_active == 1 && q.driver_id == id) = true := by
        simpa [matchDriver] using hm
      have hdel2 : scanDeleteDriver id (q :: rest) =
          some ({ q with is_active := 0 } :: rest) := by
        simp only [scanDeleteDriver, hm2, if_true]
      rw [hdel2] at hdel
      cases hdel
      have hflt : (rest.filter (matchDriver id)).length = 0 := by
        have hcons : List.filter (matchDriver id) (q :: rest) =
            q :: List.filter (matchDriver id) rest := by
          simp [List.filter_cons, hm]
        rw [hcons] at huniq
        simp only [List.length_cons] at huniq
        omega
      have hnone : ∀ p ∈ rest, matchDriver id p = false := by
        intro p hp
        by_contra hcon
        have hpt : matchDriver id p = true := by
          cases hb : matchDriver id p
          · exact absurd hb hcon
          · rfl
        have : p ∈ rest.filter (matchDriver id) := List.mem_filter.mpr ⟨hp, hpt⟩
        rw [List.length_eq_zero] at hflt
        rw [hflt] at this
        cases this
      have hstep : scanReadDriver id ({ q with is_active := 0 } :: rest) =
          scanReadDriver id rest := by
        simp [scanReadDriver]
      rw [hstep]
      exact scanReadDriver_none id rest hnone
    · have hm2 : (q.is_active == 1 && q.driver_id == id) = false := by
        cases hb : matchDriver id q
        · simpa [matchDriver] using hb
        · exact absurd hb hm
      have hdel2 : scanDeleteDriver id (q :: rest) =
          (scanDeleteDriver id rest).map (q :: ·) := by
        simp only [scanDeleteDriver, hm2, Bool.false_eq_true, if_false]
      rw [hdel2] at hdel
      obtain ⟨l2t, hrest, hl2⟩ := Option.map_eq_some'.mp hdel
      subst hl2
      have hmf : matchDriver id q = false := by
        cases hb : matchDriver id q
        · rfl
        · exact absurd hb hm
      have huniq2 : (rest.filter (matchDriver id)).length ≤ 1 := by
        have hcons : List.filter (matchDriver id) (q :: rest) =
            List.filter (matchDriver id) rest := by
          simp [List.filter_cons, hmf]
        rw [hcons] at huniq
        exact huniq
      have htail := ih l2t huniq2 hrest
      simp only [scanReadDriver, hm2, Bool.false_eq_true, if_false]
      exact htail

/-- C7: on an open store holding a driver record with the given id in a
single active slot, delete_driver succeeds; a subsequent read_driver of
that id reports not-found; and the delete changed nothing except flipping
is_active to 0 on that one slot: the store stays open, the trip table is
untouched, and the driver table equals the old table with exactly slot i
replaced by the old record with is_active zeroed (so every other field of
that slot and every other slot are byte-identical). -/
theorem claim_C7_delete_then_read_misses (st : DBState) (id : Nat) (p : DriverProfile)
    (hopen : st.is_open = true)
    (hread : read_driver st id = some p)
    (huniq : (st.drivers.filter (matchDriver id)).length ≤ 1) :
    (delete_driver st id).1 = true ∧
    read_driver (delete_driver st id).2 id = none ∧
    (delete_driver st id).2.is_open = st.is_open ∧
    (delete_driver st id).2.trips = st.trips ∧
    ∃ (i : Nat), st.drivers.get? i = some p ∧
      (delete_driver st id).2.drivers = st.drivers.set i { p with is_active := 0 } := by
  have hscan : scanReadDriver id st.drivers = some p := by
    simpa [read_driver, hopen] using hread
  obtain ⟨i, hget, hdel⟩ := scanDeleteDriver_of_read id st.drivers p hscan
  have hmiss := scanReadDriver_after_delete id st.drivers
    (st.drivers.set i { p with is_active := 0 }) huniq hdel
  refine ⟨?_, ?_, ?_, ?_, i, hget, ?_⟩ <;>
    simp [delete_driver, read_driver, hopen, hdel, hmiss]

/-- Witness for C7: one active driver with id 7; after the delete the read
misses and only is_active of slot 0 changed. -/
theorem claim_C7_witness :
    (delete_driver ⟨true, [⟨7, [1], [2], 1, 5⟩], []⟩ 7).1 = true ∧
    read_driver (delete_driver ⟨true, [⟨7, [1], [2], 1, 5⟩], []⟩ 7).2 7 = none ∧
    (delete_driver ⟨true, [⟨7, [1], [2], 1, 5⟩], []⟩ 7).2.drivers =
      [⟨7, [1], [2], 0, 5⟩] := by
  have h := claim_C7_delete_then_read_misses ⟨true, [⟨7, [1], [2], 1, 5⟩], []⟩ 7
    ⟨7, [1], [2], 1, 5⟩ rfl (by decide) (by decide)
  refine ⟨h.1, h.2.1, ?_⟩
  obtain ⟨i, hget, hdrv⟩ := h.2.2.2.2
  have hi : i = 0 := by
    cases i with
    | zero => rfl
    | succ k => cases hget
  subst hi
  simpa using hdrv

/-- Order lemma for C9: an in-place cache update never reorders entries. -/
theorem updateEntries_offsets (off : Nat) (n : BTreeNode) (d : Bool) :
    ∀ (l c : List CacheEntry), updateEntries off n d l = some c →
    c.map CacheEntry.offset = l.map CacheEntry.offset := by
  intro l
  induction l with
  | nil => intro c hc; cases hc
  | cons e rest ih =>
    intro c hc
    by_cases he : (e.offset == off) = true
    · simp only [updateEntries, he, if_true] at hc
      cases hc
      simp
    · have he2 : (e.offset == off) = false := by
        cases hb : (e.offset == off)
        · rfl
        · exact absurd hb he
      simp only [updateEntries, he2, Bool.false_eq_true, if_false] at hc
      obtain ⟨c2, hc2, hcc⟩ := Option.map_eq_some'.mp hc
      subst hcc
      simp [ih c2 hc2]

/-- C9: the node page cache is bounded by 256 entries and evicts in pure
insertion order, not least-recently-used order. On a full cache,
add_to_cache drops exactly the entry at index 0 and appends the new entry
at the back; since entries only ever enter at the back, a read hit leaves
the state (hence the order) unchanged, and an update hit rewrites an entry
in place preserving the offset order, index 0 is always the earliest-added
entry. The dropped entry is written back to its page first exactly when it
is dirty. -/
theorem claim_C9_cache_fifo_eviction (s : BTreeState) (off : Nat) (n : BTreeNode)
    (d : Bool) (e : CacheEntry) (es : List CacheEntry)
    (hc : s.cache = e :: es) (hlen : s.cache.length = CACHE_SIZE) :
    (add_to_cache s off n d).cache = es ++ [⟨off, n, d⟩] ∧
    (add_to_cache s off n d).pages =
      (if e.dirty then writePage s.pages e.offset e.node else s.pages) ∧
    (add_to_cache s off n d).cache.length = CACHE_SIZE ∧
    (∀ (o : Nat), (s.cache.find? (fun c2 => c2.offset == o)).isSome = true →
      (read_node s o).2 = s) ∧
    (∀ (o : Nat) (m : BTreeNode) (d2 : Bool) (c2 : List CacheEntry),
      updateEntries o m d2 s.cache = some c2 →
      c2.map CacheEntry.offset = s.cache.map CacheEntry.offset) := by
  have hge2 : (e :: es).length ≥ CACHE_SIZE := by
    rw [← hc]
    exact Nat.le_of_eq hlen.symm
  have hlen2 : es.length + 1 = CACHE_SIZE := by
    rw [hc] at hlen
    simpa using hlen
  refine ⟨?_, ?_, ?_, ?_, ?_⟩
  · unfold add_to_cache
    rw [hc, if_pos hge2]
  · unfold add_to_cache
    rw [hc, if_pos hge2]
  · unfold add_to_cache
    rw [hc, if_pos hge2]
    simp only [List.length_append, List.length_singleton]
    omega
  · intro o ho
    by_cases h0 : (o == 0) = true
    · simp [read_node, h0]
    · have h02 : (o == 0) = false := by
        cases hb : (o == 0)
        · rfl
        · exact absurd hb h0
      obtain ⟨e2, he2⟩ := Option.isSome_iff_exists.mp ho
      simp [read_node, h02, he2]
  · intro o m d2 c2 hup
    exact updateEntries_offsets o m d2 s.cache c2 hup

set_option maxRecDepth 400000 in
/-- Witness for C9: a full cache of 256 entries with offsets 1..256;
adding offset 999 evicts exactly the entry with offset 1 (the earliest
added) and keeps the cache at 256 entries. -/
theorem claim_C9_witness :
    (add_to_cache ⟨[], mkCacheRec 1 256, 0, 0, 0⟩ 999 BTreeNode.empty false).cache =
      mkCacheRec 2 255 ++ [⟨999, BTreeNode.empty, false⟩] ∧
    (add_to_cache ⟨[], mkCacheRec 1 256, 0, 0, 0⟩ 999 BTreeNode.empty false).cache.length =
      CACHE_SIZE := by
  have h := claim_C9_cache_fifo_eviction ⟨[], mkCacheRec 1 256, 0, 0, 0⟩ 999
    BTreeNode.empty false ⟨1, BTreeNode.empty, false⟩ (mkCacheRec 2 255)
    (by decide) (by decide)
  exact ⟨h.1, h.2.2.1⟩

/-- bpWriteNode touches only the pages of the file. -/
theorem bpWriteNode_total_entries (s : BPlusState) (off : Nat) (n : BPlusNode) :
    (bpWriteNode s off n).total_entries = s.total_entries := rfl

/-- bpSplitChild rewrites three nodes but never the metadata counters. -/
theorem bpSplitChild_total_entries (s : BPlusState) (po : Nat) (p : BPlusNode)
    (i : Nat) : (bpSplitChild s po p i).2.total_entries = s.total_entries := rfl

/-- bpInsertNonFull rewrites nodes along the descent but never the
metadata counters. -/
theorem bpInsertNonFull_total_entries (fuel : Nat) :
    ∀ (s : BPlusState) (off : Nat) (node : BPlusNode) (k : List Nat) (v : BPlusValue),
    (bpInsertNonFull fuel s off node k v).total_entries = s.total_entries := by
  induction fuel with
  | zero => intro s off node k v; rfl
  | succ f ih =>
    intro s off node k v
    unfold bpInsertNonFull
    by_cases hleaf : node.is_leaf = true
    · simp only [hleaf, if_true]
      rfl
    · have hleaf2 : node.is_leaf = false := by
        cases hb : node.is_leaf
        · rfl
        · exact absurd hb hleaf
      simp only [hleaf2, Bool.false_eq_true, if_false]
      by_cases hfull :
          ((bpReadNode s (node.children.getD (node.keys.length - bpGtSuffixLen k node.keys) 0)).getD
            BPlusNode.empty).is_full = true
      · simp only [hfull, if_true]
        rcases hsp : bpSplitChild s off node
            (node.keys.length - bpGtSuffixLen k node.keys) with ⟨node2, s2⟩
        have hs2 : s2.total_entries = s.total_entries := by
          have h := bpSplitChild_total_entries s off node
            (node.keys.length - bpGtSuffixLen k node.keys)
          rw [hsp] at h
          exact h
        rw [ih]
        exact hs2
      · have hfull2 :
            ((bpReadNode s (node.children.getD (node.keys.length - bpGtSuffixLen k node.keys) 0)).getD
              BPlusNode.empty).is_full = false := by
          cases hb :
              ((bpReadNode s (node.children.getD (node.keys.length - bpGtSuffixLen k node.keys) 0)).getD
                BPlusNode.empty).is_full
          · rfl
          · exact absurd hb hfull
        simp only [hfull2, Bool.false_eq_true, if_false]
        rw [ih]

/-- BPlusTree::insert increments total_entries by exactly one on every
call, unconditionally: there is no duplicate-key check anywhere on the
path, and the function always returns true. -/
theorem bpInsert_total_entries (fuel : Nat) (s : BPlusState) (k : List Nat)
    (v : BPlusValue) :
    (bpInsert fuel s k v).2.total_entries = s.total_entries + 1 := by
  unfold bpInsert
  by_cases hfull : ((bpReadNode s s.root_offset).getD BPlusNode.empty).is_full = true
  · simp only [hfull, if_true, bpInsertNonFull_total_entries]
    rfl
  · have hfull2 : ((bpReadNode s s.root_offset).getD BPlusNode.empty).is_full = false := by
      cases hb : ((bpReadNode s s.root_offset).getD BPlusNode.empty).is_full
      · rfl
      · exact absurd hb hfull
    simp only [hfull2, Bool.false_eq_true, if_false, bpInsertNonFull_total_entries]

/-- One rebuild step: inserting a driver record bumps the email and
username trees each by one and leaves the plate tree alone. -/
theorem rebuild_driver_step_counts (fuel : Nat) (s : IMState) (d : DriverProfile) :
    (insert_driver_username fuel (insert_driver_email fuel s d.email d.driver_id)
      d.username d.driver_id).driver_email_index.total_entries =
        s.driver_email_index.total_entries + 1 ∧
    (insert_driver_username fuel (insert_driver_email fuel s d.email d.driver_id)
      d.username d.driver_id).driver_username_index.total_entries =
        s.driver_username_index.total_entries + 1 := by
  constructor
  · show (insert_driver_email fuel s d.email d.driver_id).driver_email_index.total_entries = _
    simp [insert_driver_email, bpInsert_total_entries]
  · show (bpInsert fuel (insert_driver_email fuel s d.email d.driver_id).driver_username_index
      d.username ⟨d.driver_id, 1⟩).2.total_entries = _
    rw [bpInsert_total_entries]
    rfl

/-- Folding rebuild_driver_indexes over a record list adds one entry per
record to the email tree and to the username tree. -/
theorem rebuild_driver_indexes_counts (fuel : Nat) :
    ∀ (l : List DriverProfile) (s : IMState),
    (rebuild_driver_indexes fuel s l).driver_email_index.total_entries =
      s.driver_email_index.total_entries + l.length ∧
    (rebuild_driver_indexes fuel s l).driver_username_index.total_entries =
      s.driver_username_index.total_entries + l.length := by
  intro l
  induction l with
  | nil => intro s; exact ⟨rfl, rfl⟩
  | cons d rest ih =>
    intro s
    have hstep := rebuild_driver_step_counts fuel s d
    have htail := ih (insert_driver_username fuel
      (insert_driver_email fuel s d.email d.driver_id) d.username d.driver_id)
    unfold rebuild_driver_indexes at htail ⊢
    rw [List.foldl_cons]
    constructor
    · rw [htail.1, hstep.1]
      simp [List.length_cons]
      omega
    · rw [htail.2, hstep.2]
      simp [List.length_cons]
      omega

/-- Folding rebuild_vehicle_indexes over a record list adds one entry per
record to the plate tree. -/
theorem rebuild_vehicle_indexes_counts (fuel : Nat) :
    ∀ (l : List VehicleInfo) (s : IMState),
    (rebuild_vehicle_indexes fuel s l).vehicle_plate_index.total_entries =
      s.vehicle_plate_index.total_entries + l.length := by
  intro l
  induction l with
  | nil => intro s; rfl
  | cons v rest ih =>
    intro s
    have hstep : (insert_vehicle_plate fuel s v.license_plate v.vehicle_id).vehicle_plate_index.total_entries =
        s.vehicle_plate_index.total_entries + 1 := by
      simp [insert_vehicle_plate, bpInsert_total_entries]
    have htail := ih (insert_vehicle_plate fuel s v.license_plate v.vehicle_id)
    unfold rebuild_vehicle_indexes at htail ⊢
    rw [List.foldl_cons]
    rw [htail, hstep]
    simp [List.length_cons]
    omega

/-- C6: rebuild_driver_indexes and rebuild_vehicle_indexes are not
idempotent. Starting from freshly created indexes, running a rebuild over
any non-empty record list and then running it again over the same list
inserts every key a second time — there is no existence check before
insert, and BPlusTree::insert always appends and always increments — so
each affected tree ends with exactly twice the entry count of the first
run, which itself equals the record count (and is positive). -/
theorem claim_C6_rebuild_indexes_not_idempotent (fuel : Nat)
    (drivers : List DriverProfile) (vehicles : List VehicleInfo)
    (hd : drivers ≠ []) (hv : vehicles ≠ []) :
    (rebuild_driver_indexes fuel (rebuild_driver_indexes fuel imNew drivers)
        drivers).driver_email_index.total_entries =
      2 * (rebuild_driver_indexes fuel imNew drivers).driver_email_index.total_entries ∧
    (rebuild_driver_indexes fuel (rebuild_driver_indexes fuel imNew drivers)
        drivers).driver_username_index.total_entries =
      2 * (rebuild_driver_indexes fuel imNew drivers).driver_username_index.total_entries ∧
    (rebuild_vehicle_indexes fuel (rebuild_vehicle_indexes fuel imNew vehicles)
        vehicles).vehicle_plate_index.total_entries =
      2 * (rebuild_vehicle_indexes fuel imNew vehicles).vehicle_plate_index.total_entries ∧
    (rebuild_driver_indexes fuel imNew drivers).driver_email_index.total_entries =
      drivers.length ∧
    0 < (rebuild_driver_indexes fuel imNew drivers).driver_email_index.total_entries ∧
    0 < (rebuild_vehicle_indexes fuel imNew vehicles).vehicle_plate_index.total_entries := by
  have h1 := rebuild_driver_indexes_counts fuel drivers imNew
  have h2 := rebuild_driver_indexes_counts fuel drivers
    (rebuild_driver_indexes fuel imNew drivers)
  have h3 := rebuild_vehicle_indexes_counts fuel vehicles imNew
  have h4 := rebuild_vehicle_indexes_counts fuel vehicles
    (rebuild_vehicle_indexes fuel imNew vehicles)
  have hz1 : (imNew.driver_email_index).total_entries = 0 := rfl
  have hz2 : (imNew.driver_username_index).total_entries = 0 := rfl
  have hz3 : (imNew.vehicle_plate_index).total_entries = 0 := rfl
  have hdl : 0 < drivers.length := List.length_pos.mpr hd
  have hvl : 0 < vehicles.length := List.length_pos.mpr hv
  refine ⟨?_, ?_, ?_, ?_, ?_, ?_⟩
  · rw [h2.1, h1.1, hz1]; omega
  · rw [h2.2, h1.2, hz2]; omega
  · rw [h4, h3, hz3]; omega
  · rw [h1.1, hz1]; omega
  · rw [h1.1, hz1]; omega
  · rw [h3, hz3]; omega

/-- Witness for C6: one driver and one vehicle record, rebuilt twice. -/
theorem claim_C6_witness :
    (rebuild_driver_indexes 8 (rebuild_driver_indexes 8 imNew [⟨1, [1], [2], 1, 0⟩])
        [⟨1, [1], [2], 1, 0⟩]).driver_email_index.total_entries =
      2 * (rebuild_driver_indexes 8 imNew
        [⟨1, [1], [2], 1, 0⟩]).driver_email_index.total_entries ∧
    (rebuild_vehicle_indexes 8 (rebuild_vehicle_indexes 8 imNew [⟨1, [3]⟩])
        [⟨1, [3]⟩]).vehicle_plate_index.total_entries =
      2 * (rebuild_vehicle_indexes 8 imNew [⟨1, [3]⟩]).vehicle_plate_index.total_entries := by
  have h := claim_C6_rebuild_indexes_not_idempotent 8 [⟨1, [1], [2], 1, 0⟩] [⟨1, [3]⟩]
    (by decide) (by decide)
  exact ⟨h.1, h.2.2.1⟩

set_option maxRecDepth 1000000 in
set_option maxHeartbeats 4000000 in
/-- C3: the concrete scenario diverges from the claim, kernel-evaluated
here on the embedded code at one-tenth scale: inserting composite keys
(3, i, i, 0) with value offset i for i = 1..100 in ascending order into a
fresh composite B-Tree gives get_tree_height() = 2, strictly below
⌈log₅ 100⌉ = 3; search of the inserted key for id 50 returns not-found
(50 was promoted to a separator by a leaf split and its value dropped)
while id 51 is found; and the range query over ids [25, 75] returns 260
entries instead of the 51 in-range keys, because split-promoted medians
are omitted while the leaf chain and the parent child-loop each emit the
other leaves again. The full-scale run (ids 1..1000) diverges identically:
height 3 instead of ⌈log₅ 1000⌉ = 5, search for id 500 not-found, and 920
range entries over ids [100, 200] instead of 101. -/
theorem claim_C3_scenario_divergence_tenth_scale :
    (insertIds 64 btreeNew (idRange 1 100)).total_records = 100 ∧
    (insertIds 64 btreeNew (idRange 1 100)).tree_height = 2 ∧
    (btreeSearch 64 (insertIds 64 btreeNew (idRange 1 100)) (tripKey 50)).1 = none ∧
    (btreeSearch 64 (insertIds 64 btreeNew (idRange 1 100)) (tripKey 51)).1 =
      some (tripVal 51) ∧
    (btreeRangeQuery 300 (insertIds 64 btreeNew (idRange 1 100))
      (tripKey 25) (tripKey 75)).1.length = 260 := by
  decide

end SDM
